import Mathlib

/-!
Shallow embedding of the two Telegram bots of this repository:
`src/main.py` (the delivery-tracking bot, modelled in namespace `Delivery`)
and `src/bot.py` (the letter-obfuscation bot, modelled in namespace `ObfBot`).
Pure data and control flow are translated directly from the Python source;
I/O (Telegram transport, the JSON file on disk, `random.random()`) is made
explicit: the file is a value passed to `load_data`, the notification sink is
an oracle `sendOk`, and the random stream is an oracle `coin : Nat → Bool`.
-/

namespace Delivery

/-- Calendar date, modelling Python `datetime.date` (year, month, day). -/
structure Date where
  year : Nat
  month : Nat
  day : Nat
deriving DecidableEq

/-- Python `date` ordering: lexicographic on (year, month, day), as a Bool. -/
def Date.ble (a b : Date) : Bool :=
  decide (a.year < b.year ∨ (a.year = b.year ∧
    (a.month < b.month ∨ (a.month = b.month ∧ a.day ≤ b.day))))

/-- Python `date` strict ordering (used by `delivery_date < date.today()`). -/
def Date.blt (a b : Date) : Bool :=
  decide (a.year < b.year ∨ (a.year = b.year ∧
    (a.month < b.month ∨ (a.month = b.month ∧ a.day < b.day))))

/-- Gregorian leap-year rule, as enforced by Python `datetime.date`. -/
def isLeap (y : Nat) : Bool :=
  decide (y % 4 = 0 ∧ (y % 100 ≠ 0 ∨ y % 400 = 0))

/-- Number of days of month `m` in year `y` (Python `calendar` rule). -/
def daysInMonth (y m : Nat) : Nat :=
  if m = 2 then (if isLeap y then 29 else 28)
  else if m = 4 ∨ m = 6 ∨ m = 9 ∨ m = 11 then 30
  else 31

/-- The invariant Python `datetime.date` enforces on its components
(`MINYEAR = 1`, `MAXYEAR = 9999`, valid month, valid day of month). -/
def Date.Valid (d : Date) : Prop :=
  1 ≤ d.year ∧ d.year ≤ 9999 ∧ 1 ≤ d.month ∧ d.month ≤ 12 ∧
    1 ≤ d.day ∧ d.day ≤ daysInMonth d.year d.month

instance (d : Date) : Decidable d.Valid := by
  unfold Date.Valid; infer_instance

/-- Numeric value of a decimal digit character. -/
def digitVal (c : Char) : Nat := c.toNat - 48

/-- Two-digit zero-padded decimal rendering (`%02d` for values below 100). -/
def pad2 (n : Nat) : List Char := [Nat.digitChar (n / 10), Nat.digitChar (n % 10)]

/-- Four-digit zero-padded decimal rendering (`%04d` for values below 10000). -/
def pad4 (n : Nat) : List Char :=
  [Nat.digitChar (n / 1000), Nat.digitChar (n / 100 % 10),
   Nat.digitChar (n / 10 % 10), Nat.digitChar (n % 10)]

/-- Python `date.isoformat()`: `YYYY-MM-DD`. -/
def Date.isoformat (d : Date) : String :=
  String.mk (pad4 d.year ++ '-' :: pad2 d.month ++ '-' :: pad2 d.day)

/-- Python `date.strftime('%d.%m.%Y')`: `DD.MM.YYYY`, as used in every
user-facing message of `src/main.py`. -/
def Date.strftimeDmY (d : Date) : String :=
  String.mk (pad2 d.day ++ '.' :: pad2 d.month ++ '.' :: pad4 d.year)

/-- Python `date.fromisoformat`: accepts exactly `YYYY-MM-DD` with decimal
digits, and rejects (raises `ValueError`, here `none`) anything else,
including component values outside the calendar range. -/
def Date.fromisoformat (s : String) : Option Date :=
  match s.data with
  | [y1, y2, y3, y4, s1, m1, m2, s2, d1, d2] =>
    if s1 = '-' ∧ s2 = '-' ∧ y1.isDigit ∧ y2.isDigit ∧ y3.isDigit ∧ y4.isDigit ∧
        m1.isDigit ∧ m2.isDigit ∧ d1.isDigit ∧ d2.isDigit then
      let d : Date :=
        ⟨digitVal y1 * 1000 + digitVal y2 * 100 + digitVal y3 * 10 + digitVal y4,
         digitVal m1 * 10 + digitVal m2,
         digitVal d1 * 10 + digitVal d2⟩
      if d.Valid then some d else none
    else none
  | _ => none

/-- Record stored per customer: the dataclass `Customer` of `src/main.py`.
Amounts are modelled over ℚ; Python's json module writes a float back
exactly as it was loaded, so the number passes through unchanged. -/
structure Customer where
  tag : String
  delivery_date : Date
  order_amount : Option ℚ := none
  split_payment : Option Bool := none
  notified : Bool := false
deriving DecidableEq

/-- The in-memory store `self.customers`: a Python dict from tag to record,
modelled as an association list in insertion order (Python dicts iterate in
insertion order; assigning to an existing key keeps its position). -/
abbrev Store := List (String × Customer)

/-- Python dict lookup `d[k]` / membership `k in d`, generically. -/
def dlookup {α : Type} : List (String × α) → String → Option α
  | [], _ => none
  | (t, a) :: rest, k => if k = t then some a else dlookup rest k

/-- Python dict assignment `d[k] = v`: replaces in place when the key
exists, else appends at the end. -/
def dinsert {α : Type} (k : String) (v : α) : List (String × α) → List (String × α)
  | [] => [(k, v)]
  | (t, a) :: rest => if k = t then (t, v) :: rest else (t, a) :: dinsert k v rest

/-- Python `del d[k]` (keys are unique, so removing the first match). -/
def derase {α : Type} (k : String) : List (String × α) → List (String × α)
  | [] => []
  | (t, a) :: rest => if k = t then rest else (t, a) :: derase k rest

/-- The dict invariant: keys are pairwise distinct. -/
def KeysNodup {α : Type} (s : List (String × α)) : Prop := (s.map Prod.fst).Nodup

instance {α : Type} (s : List (String × α)) : Decidable (KeysNodup s) := by
  unfold KeysNodup; infer_instance

/-- JSON values as decoded by `json.load` / encoded by `json.dump`. -/
inductive Json where
  | null : Json
  | bool (b : Bool) : Json
  | num (q : ℚ) : Json
  | str (s : String) : Json
  | arr (elems : List Json) : Json
  | obj (fields : List (String × Json)) : Json

/-- The Python exception kinds the modelled code paths can raise. -/
inductive PyErr where
  | keyError | typeError | valueError | attributeError
deriving DecidableEq

/-- One record as `save_data` writes it: `asdict(customer)` with
`delivery_date` overwritten by its ISO string; fields appear in dataclass
declaration order. -/
def saveCustomer (c : Customer) : Json :=
  .obj [("tag", .str c.tag),
        ("delivery_date", .str c.delivery_date.isoformat),
        ("order_amount", match c.order_amount with | none => .null | some q => .num q),
        ("split_payment", match c.split_payment with | none => .null | some b => .bool b),
        ("notified", .bool c.notified)]

/-- `DeliveryBot.save_data`: the whole store dumped as one JSON object keyed
by tag, in store (insertion) order. -/
def save_data (s : Store) : Json :=
  .obj (s.map fun p => (p.1, saveCustomer p.2))

/-- The `Customer` dataclass field names (the keys `Customer(**kwargs)`
accepts; any other key raises `TypeError`). -/
def customerFields : List String :=
  ["tag", "delivery_date", "order_amount", "split_payment", "notified"]

/-- `order_amount` value from JSON; absent defaults to `None`. (Python's
dataclass does not type-check values; the embedding types them, which only
narrows inputs unreachable from `save_data` output.) -/
def parseOptNum : Option Json → Except PyErr (Option ℚ)
  | none => .ok none
  | some .null => .ok none
  | some (.num q) => .ok (some q)
  | some _ => .error .typeError

/-- `split_payment` value from JSON; absent defaults to `None`. -/
def parseOptBool : Option Json → Except PyErr (Option Bool)
  | none => .ok none
  | some .null => .ok none
  | some (.bool b) => .ok (some b)
  | some _ => .error .typeError

/-- `notified` value from JSON; absent defaults to `False`. -/
def parseBoolD (dflt : Bool) : Option Json → Except PyErr Bool
  | none => .ok dflt
  | some (.bool b) => .ok b
  | some _ => .error .typeError

/-- `tag` value from JSON; `Customer(**kwargs)` without `tag` raises
`TypeError` (missing required argument). -/
def parseTag : Option Json → Except PyErr String
  | some (.str t) => .ok t
  | some _ => .error .typeError
  | none => .error .typeError

/-- One iteration body of the `load_data` loop:
`customer_data['delivery_date'] = date.fromisoformat(customer_data['delivery_date'])`
(`KeyError` if absent, `TypeError` if not a string, `ValueError` if
malformed) followed by `Customer(**customer_data)`. -/
def parseCustomer (j : Json) : Except PyErr Customer :=
  match j with
  | .obj fields =>
    match dlookup fields "delivery_date" with
    | none => .error .keyError
    | some (.str ds) =>
      match Date.fromisoformat ds with
      | none => .error .valueError
      | some d =>
        if fields.all (fun p => customerFields.contains p.1) then do
          let tag ← parseTag (dlookup fields "tag")
          let oa ← parseOptNum (dlookup fields "order_amount")
          let sp ← parseOptBool (dlookup fields "split_payment")
          let nf ← parseBoolD false (dlookup fields "notified")
          .ok { tag := tag, delivery_date := d, order_amount := oa,
                split_payment := sp, notified := nf }
        else .error .typeError
    | some _ => .error .typeError
  | _ => .error .attributeError

/-- The `load_data` loop over `data.items()`, building `self.customers` by
dict assignment in file order; the first raised error aborts the load
(`.items()` on a non-dict raises `AttributeError`). -/
def parseStore (j : Json) : Except PyErr Store :=
  match j with
  | .obj entries => go [] entries
  | _ => .error .attributeError
where go : Store → List (String × Json) → Except PyErr Store
  | acc, [] => .ok acc
  | acc, (tag, cj) :: rest =>
    match parseCustomer cj with
    | .error e => .error e
    | .ok c => go (dinsert tag c acc) rest

/-- What `load_data` sees of the file system: `none` when
`os.path.exists('customers_data.json')` is false, otherwise the outcome of
`json.load` on the file (a raised decode error, or the decoded value). -/
abbrev FileState := Option (Except PyErr Json)

/-- The body of `load_data`'s `try` block, propagating any raised error. -/
def loadAttempt (file : FileState) : Except PyErr Store :=
  match file with
  | none => .ok []
  | some (.error e) => .error e
  | some (.ok j) => parseStore j

/-- `DeliveryBot.load_data`: the `try` body under `except Exception`, which
logs and resets the store to empty — the caller never sees an exception.
Returns the resulting store and the logged error lines. -/
def load_data (file : FileState) : Store × List String :=
  match loadAttempt file with
  | .ok s => (s, [])
  | .error _ => ([], ["Error loading data"])

/-- `DeliveryBot.delete_customer`: returns the new store, whether the tag
was found (`True` answers "deleted", `False` answers "not found"), and the
number of `save_data` calls performed. -/
def delete_customer (s : Store) (tag : String) : Store × Bool × Nat :=
  if (dlookup s tag).isSome then (derase tag s, true, 1) else (s, false, 0)

/-- Store mutation of `process_date_selection` with the order-amount step
disabled: `Customer(tag=tag, delivery_date=delivery_date)` — the remaining
fields take their dataclass defaults, in particular `notified=False`. -/
def process_date_selection_store (tag : String) (d : Date) (s : Store) : Store :=
  dinsert tag { tag := tag, delivery_date := d } s

/-- Store mutation of `finalize_customer` (split step skipped). -/
def finalize_customer_store (tag : String) (d : Date) (oa : Option ℚ)
    (s : Store) : Store :=
  dinsert tag { tag := tag, delivery_date := d, order_amount := oa,
                split_payment := none } s

/-- Store mutation of `finalize_customer_query` (full intake); `notified`
again takes its dataclass default `False`. -/
def finalize_customer_query_store (tag : String) (d : Date) (oa : Option ℚ)
    (sp : Option Bool) (s : Store) : Store :=
  dinsert tag { tag := tag, delivery_date := d, order_amount := oa,
                split_payment := sp } s

/-- The ordering `show_customers_list` displays:
`sorted(self.customers.items(), key=lambda x: x[1].delivery_date)`.
Python `sorted` is a stable sort; modelled by `List.mergeSort` (stable). -/
def sorted_customers (s : Store) : Store :=
  s.mergeSort (fun a b => a.2.delivery_date.ble b.2.delivery_date)

/-- The reminder text `check_deliveries` sends (f-string spliced). -/
def reminderText (tag : String) (d : Date) : String :=
  "🔔 Напоминание о доставке!\n\n" ++
    "Сегодня доставка для покупателя: " ++ tag ++
    "\nДата: " ++ d.strftimeDmY

/-- Outcome of one `check_deliveries` scan: updated store, the delivered
notifications in send order, logged errors, and `save_data` call count. -/
structure ScanResult where
  customers : Store
  sent : List (String × String)
  logs : List String
  saves : Nat
deriving DecidableEq

/-- `DeliveryBot.check_deliveries`: one scan over the store at date `today`.
`sendOk tag` says whether `bot.send_message` succeeds for that record's
reminder; on success `notified` is set and `save_data` runs, on failure the
exception is caught and logged and the record is left untouched. -/
def check_deliveries (sendOk : String → Bool) (today : Date) : Store → ScanResult
  | [] => ⟨[], [], [], 0⟩
  | (tag, c) :: rest =>
    let r := check_deliveries sendOk today rest
    if c.delivery_date = today ∧ c.notified = false then
      if sendOk tag then
        ⟨(tag, { c with notified := true }) :: r.customers,
         (tag, reminderText tag c.delivery_date) :: r.sent, r.logs, r.saves + 1⟩
      else
        ⟨(tag, c) :: r.customers, r.sent, "Error sending reminder" :: r.logs, r.saves⟩
    else
      ⟨(tag, c) :: r.customers, r.sent, r.logs, r.saves⟩

/-- Decimal value of a digit string (empty gives 0). -/
def decVal (l : List Char) : Nat :=
  l.foldl (fun a c => a * 10 + digitVal c) 0

/-- Python `float()` restricted to plain decimal notation
`[+-]? digits [. digits]` (also `.5` and `5.`), the shapes an order-amount
text takes after `','` is replaced by `'.'`; exponents, `inf`/`nan` and
surrounding whitespace are outside the modelled input space. Anything else
raises `ValueError` (`none`). -/
def pyFloat (s : String) : Option ℚ :=
  let cs := s.data
  let sign : ℚ := match cs with | '-' :: _ => -1 | _ => 1
  let body := match cs with
    | '-' :: rest => rest
    | '+' :: rest => rest
    | _ => cs
  let ip := body.takeWhile Char.isDigit
  let rest := body.dropWhile Char.isDigit
  match rest with
  | [] => if ip.isEmpty then none else some (sign * decVal ip)
  | '.' :: fp =>
    if fp.all Char.isDigit ∧ (ip ≠ [] ∨ fp ≠ []) then
      some (sign * ((decVal ip : ℚ) + decVal fp / 10 ^ fp.length))
    else none
  | _ => none

/-- Python `text.replace(',', '.')` for the single-character pattern:
every comma becomes a dot. -/
def replaceCommaDot (s : String) : String :=
  String.mk (s.data.map fun ch => if ch = ',' then '.' else ch)

/-- Outcome of the `get_order_amount` step. -/
inductive OrderStep where
  | retry
  | askSplit (amount : ℚ)
  | finalized (amount : ℚ)
deriving DecidableEq

/-- `DeliveryBot.get_order_amount`: `float(update.message.text.replace(',', '.'))`;
a `ValueError` re-prompts and stays on `ORDER_AMOUNT`; any successfully
parsed value advances (to `SPLIT_PAYMENT`, or straight to
`finalize_customer`). The source contains no positivity check. -/
def get_order_amount (split_payment_enabled : Bool) (text : String) : OrderStep :=
  match pyFloat (replaceCommaDot text) with
  | none => .retry
  | some amount =>
    if split_payment_enabled then .askSplit amount else .finalized amount

/-- A decoded framework update: the two members the modelled handlers
touch. A plain text message has `callback_query = none`. -/
structure Update where
  message : Option String
  callback_query : Option Unit

/-- Python `datetime.strptime(s, "%d.%m.%Y").date()`: one-or-two-digit day
and month, up-to-four-digit year, dots between, whole string consumed, with
calendar validation; `ValueError` (`none`) otherwise. -/
def strptime_dmY (s : String) : Option Date :=
  match s.data.splitOn '.' with
  | [dgs, mgs, ygs] =>
    if 1 ≤ dgs.length ∧ dgs.length ≤ 2 ∧ dgs.all Char.isDigit ∧
        1 ≤ mgs.length ∧ mgs.length ≤ 2 ∧ mgs.all Char.isDigit ∧
        1 ≤ ygs.length ∧ ygs.length ≤ 4 ∧ ygs.all Char.isDigit then
      let d : Date := ⟨decVal ygs, decVal mgs, decVal dgs⟩
      if d.Valid then some d else none
    else none
  | _ => none

/-- Naive substring-occurrence test, used only to state what a message text
does not contain. -/
def containsSub (pat : List Char) : List Char → Bool
  | [] => pat.isEmpty
  | c :: cs => pat.isPrefixOf (c :: cs) || containsSub pat cs

/-- Outcome of `custom_date_handler` when it returns normally. -/
inductive DateStep where
  | retry
  | askAmount (d : Date)
  | created (d : Date)
deriving DecidableEq

/-- `DeliveryBot.custom_date_handler`, raised exceptions made explicit.
The handler evaluates `update.callback_query.answer()` before and outside
its `try` block; for a text-message update `callback_query` is `None`, so
this raises `AttributeError` (the `try` catches only `ValueError`).
Otherwise: unparsable text or a date before `today` re-prompts and stays on
the `CUSTOM_DATE` step; a valid date goes to `process_date_selection_message`. -/
def custom_date_handler (today : Date) (order_amount_enabled : Bool)
    (u : Update) : Except PyErr DateStep :=
  match u.callback_query with
  | none => .error .attributeError
  | some _ =>
    match u.message with
    | none => .error .attributeError
    | some text =>
      match strptime_dmY text.trim with
      | none => .ok .retry
      | some d =>
        if d.blt today then .ok .retry
        else if order_amount_enabled then .ok (.askAmount d)
        else .ok (.created d)

end Delivery

namespace ObfBot

/-- `REPLACEMENT_MAP` of `src/bot.py`: Cyrillic letters to Latin
look-alikes. -/
def REPLACEMENT_MAP : List (Char × Char) :=
  [('а', 'a'), ('е', 'e'), ('с', 'c'), ('о', 'o'),
   ('р', 'p'), ('х', 'x'), ('у', 'y'),
   ('А', 'A'), ('Е', 'E'), ('С', 'C'), ('О', 'O'),
   ('Р', 'P'), ('Х', 'X'), ('У', 'Y')]

/-- Python dict lookup on the replacement map (`char in MAP` / `MAP[char]`). -/
def lookupChar : List (Char × Char) → Char → Option Char
  | [], _ => none
  | (k, v) :: rest, c => if c = k then some v else lookupChar rest c

/-- The traversal of `replace_letters` with `random.random() < 0.5` made an
oracle: the i-th `random.random()` call of the traversal yields `coin i`;
by `and` short-circuit a call happens only for characters in the map. -/
def replaceFrom (coin : Nat → Bool) : Nat → List Char → List Char
  | _, [] => []
  | i, c :: cs =>
    match lookupChar REPLACEMENT_MAP c with
    | some r => (if coin i then r else c) :: replaceFrom coin (i + 1) cs
    | none => c :: replaceFrom coin i cs

/-- `replace_letters` of `src/bot.py`. -/
def replace_letters (coin : Nat → Bool) (text : String) : String :=
  String.mk (replaceFrom coin 0 text.data)

end ObfBot

namespace Delivery

lemma isDigit_digitChar {n : Nat} (h : n < 10) : (Nat.digitChar n).isDigit = true := by
  interval_cases n <;> rfl

lemma digitVal_digitChar {n : Nat} (h : n < 10) : digitVal (Nat.digitChar n) = n := by
  interval_cases n <;> rfl

lemma daysInMonth_le (y m : Nat) : daysInMonth y m ≤ 31 := by
  unfold daysInMonth
  split
  · split <;> omega
  · split <;> omega

/-- Serialize-then-parse on dates is the identity for every valid date. -/
theorem fromisoformat_isoformat {d : Date} (h : d.Valid) :
    Date.fromisoformat d.isoformat = some d := by
  obtain ⟨h1, h2, h3, h4, h5, h6⟩ := h
  have hmd := daysInMonth_le d.year d.month
  have hy : d.year < 10000 := by omega
  have hm : d.month < 100 := by omega
  have hd : d.day < 100 := by omega
  simp only [Date.isoformat, Date.fromisoformat, pad4, pad2, List.cons_append,
    List.nil_append]
  rw [if_pos]
  · have e1 : digitVal (Nat.digitChar (d.year / 1000)) = d.year / 1000 :=
      digitVal_digitChar (by omega)
    have e2 : digitVal (Nat.digitChar (d.year / 100 % 10)) = d.year / 100 % 10 :=
      digitVal_digitChar (by omega)
    have e3 : digitVal (Nat.digitChar (d.year / 10 % 10)) = d.year / 10 % 10 :=
      digitVal_digitChar (by omega)
    have e4 : digitVal (Nat.digitChar (d.year % 10)) = d.year % 10 :=
      digitVal_digitChar (by omega)
    have e5 : digitVal (Nat.digitChar (d.month / 10)) = d.month / 10 :=
      digitVal_digitChar (by omega)
    have e6 : digitVal (Nat.digitChar (d.month % 10)) = d.month % 10 :=
      digitVal_digitChar (by omega)
    have e7 : digitVal (Nat.digitChar (d.day / 10)) = d.day / 10 :=
      digitVal_digitChar (by omega)
    have e8 : digitVal (Nat.digitChar (d.day % 10)) = d.day % 10 :=
      digitVal_digitChar (by omega)
    simp only [e1, e2, e3, e4, e5, e6, e7, e8]
    have ey : d.year / 1000 * 1000 + d.year / 100 % 10 * 100 + d.year / 10 % 10 * 10 +
        d.year % 10 = d.year := by omega
    have em : d.month / 10 * 10 + d.month % 10 = d.month := by omega
    have ed : d.day / 10 * 10 + d.day % 10 = d.day := by omega
    simp only [ey, em, ed]
    rw [if_pos]
    exact ⟨h1, h2, h3, h4, h5, h6⟩
  · refine ⟨trivial, trivial, ?_, ?_, ?_, ?_, ?_, ?_, ?_, ?_⟩ <;>
      exact isDigit_digitChar (by omega)

lemma dlookup_mem {α : Type} {s : List (String × α)} {k : String} {v : α}
    (h : dlookup s k = some v) : (k, v) ∈ s := by
  induction s with
  | nil => simp [dlookup] at h
  | cons p rest ih =>
    obtain ⟨t, a⟩ := p
    by_cases hk : k = t
    · subst hk
      simp [dlookup] at h
      simp [h]
    · simp [dlookup, hk] at h
      exact List.mem_cons_of_mem _ (ih h)

lemma dlookup_derase_ne {α : Type} (s : List (String × α)) {k k' : String}
    (h : k ≠ k') : dlookup (derase k' s) k = dlookup s k := by
  induction s with
  | nil => rfl
  | cons p rest ih =>
    obtain ⟨t, a⟩ := p
    by_cases ht : k' = t
    · subst ht
      simp [derase, dlookup, h]
    · by_cases hk : k = t
      · subst hk
        simp [derase, dlookup, ht]
      · simp [derase, dlookup, ht, hk, ih]

lemma dlookup_derase_self {α : Type} {s : List (String × α)} {k : String}
    (hnd : KeysNodup s) : dlookup (derase k s) k = none := by
  induction s with
  | nil => rfl
  | cons p rest ih =>
    obtain ⟨t, a⟩ := p
    rw [KeysNodup, List.map_cons, List.nodup_cons] at hnd
    by_cases hk : k = t
    · subst hk
      simp only [derase, if_pos rfl]
      clear ih
      induction rest with
      | nil => rfl
      | cons q rest' ih' =>
        obtain ⟨t', a'⟩ := q
        have ht' : k ≠ t' := by
          intro he
          exact hnd.1 (by simp [he])
        simp only [dlookup, if_neg ht']
        exact ih' ⟨fun hm => hnd.1 (by simp at hm ⊢; tauto), hnd.2.of_cons⟩
    · simp only [derase, if_neg (Ne.symm (fun he => hk he.symm)), dlookup, if_neg hk]
      exact ih hnd.2

lemma dlookup_dinsert_self {α : Type} (s : List (String × α)) (k : String) (v : α) :
    dlookup (dinsert k v s) k = some v := by
  induction s with
  | nil => simp [dinsert, dlookup]
  | cons p rest ih =>
    obtain ⟨t, a⟩ := p
    by_cases hk : k = t
    · subst hk
      simp [dinsert, dlookup]
    · simp [dinsert, dlookup, hk, ih]

lemma mem_dinsert {α : Type} {s : List (String × α)} {k : String} {v : α} {p : String × α} :
    p ∈ dinsert k v s → p = (k, v) ∨ p ∈ s := by
  induction s with
  | nil =>
    intro h
    simpa [dinsert] using h
  | cons q rest ih =>
    obtain ⟨t, a⟩ := q
    intro h
    by_cases hk : k = t
    · subst hk
      simp only [dinsert, if_true, eq_self_iff_true, ite_true, List.mem_cons] at h
      rcases h with h | h
      · exact Or.inl (by simp [h])
      · exact Or.inr (List.mem_cons_of_mem _ h)
    · simp only [dinsert, if_neg hk, List.mem_cons] at h
      rcases h with h | h
      · exact Or.inr (by simp [h])
      · rcases ih h with h' | h'
        · exact Or.inl h'
        · exact Or.inr (List.mem_cons_of_mem _ h')

lemma map_fst_dinsert_mem {α : Type} {s : List (String × α)} {k : String} (v : α)
    (h : k ∈ s.map Prod.fst) :
    (dinsert k v s).map Prod.fst = s.map Prod.fst := by
  induction s with
  | nil => simp at h
  | cons p rest ih =>
    obtain ⟨t, a⟩ := p
    by_cases hk : k = t
    · subst hk
      simp [dinsert]
    · simp only [List.map_cons, List.mem_cons] at h
      rcases h with h | h
      · exact absurd h hk
      · simp [dinsert, hk, ih h]

lemma map_fst_dinsert_not_mem {α : Type} {s : List (String × α)} {k : String} (v : α)
    (h : k ∉ s.map Prod.fst) :
    (dinsert k v s).map Prod.fst = s.map Prod.fst ++ [k] := by
  induction s with
  | nil => simp [dinsert]
  | cons p rest ih =>
    obtain ⟨t, a⟩ := p
    simp only [List.map_cons, List.mem_cons] at h
    push_neg at h
    simp [dinsert, h.1, ih h.2]

lemma keysNodup_dinsert {α : Type} {s : List (String × α)} (k : String) (v : α)
    (hnd : KeysNodup s) : KeysNodup (dinsert k v s) := by
  by_cases h : k ∈ s.map Prod.fst
  · rw [KeysNodup, map_fst_dinsert_mem v h]
    exact hnd
  · rw [KeysNodup, map_fst_dinsert_not_mem v h]
    simpa [List.nodup_append] using ⟨hnd, by simpa using h⟩

lemma dinsert_not_mem_append {α : Type} {s : List (String × α)} {k : String} (v : α)
    (h : k ∉ s.map Prod.fst) : dinsert k v s = s ++ [(k, v)] := by
  induction s with
  | nil => simp [dinsert]
  | cons p rest ih =>
    obtain ⟨t, a⟩ := p
    simp only [List.map_cons, List.mem_cons] at h
    push_neg at h
    simp [dinsert, h.1, ih h.2]

/-- Claim C4: the claim says free-form date input that is unparsable or in
the past is rejected with a re-prompt and never crashes. The code instead
evaluates `update.callback_query.answer()` before its `try` block; a
free-form date arrives as a text message, whose `callback_query` is `None`,
so every such input raises `AttributeError` (only `ValueError` is caught).
This theorem evaluates the embedded handler on an arbitrary text input and
shows it always raises. -/
theorem claim_C4 (today : Date) (order_amount_enabled : Bool) (text : String) :
    custom_date_handler today order_amount_enabled
      { message := some text, callback_query := none } =
      .error .attributeError := rfl

/-- Claim C5: deleting a non-existent key answers "not found", leaves the
store (hence `list()`'s size) unchanged, and performs no persistence
write. -/
theorem claim_C5 (s : Store) (tag : String) (h : dlookup s tag = none) :
    delete_customer s tag = (s, false, 0) ∧
      (delete_customer s tag).1.length = s.length := by
  have : delete_customer s tag = (s, false, 0) := by
    unfold delete_customer
    rw [h]
    rfl
  exact ⟨this, by rw [this]⟩

/-- Witness for C5 at a concrete store and missing key. -/
theorem claim_C5_witness :
    delete_customer [("@alice", { tag := "@alice", delivery_date := ⟨2026, 10, 15⟩ })] "@bob" =
      ([("@alice", { tag := "@alice", delivery_date := ⟨2026, 10, 15⟩ })], false, 0) ∧
    (delete_customer [("@alice", { tag := "@alice", delivery_date := ⟨2026, 10, 15⟩ })] "@bob").1.length =
      [("@alice", { tag := "@alice", delivery_date := ⟨2026, 10, 15⟩ : Customer })].length :=
  claim_C5 _ "@bob" (by decide)

/-- Claim C6: `load_data` never lets an exception reach its caller: a
missing file yields the empty store; any error raised inside the `try`
body (invalid JSON from `json.load`, a missing field, a malformed date)
yields the empty store plus a logged error line; otherwise the parsed
store is returned. -/
theorem claim_C6 (file : FileState) :
    (file = none → load_data file = ([], [])) ∧
    (∀ e, loadAttempt file = .error e → load_data file = ([], ["Error loading data"])) ∧
    (∀ s, loadAttempt file = .ok s → load_data file = (s, [])) := by
  refine ⟨?_, ?_, ?_⟩
  · rintro rfl
    rfl
  · intro e he
    unfold load_data
    rw [he]
  · intro s hs
    unfold load_data
    rw [hs]

lemma dlookup_not_mem {α : Type} {s : List (String × α)} {k : String}
    (h : k ∉ s.map Prod.fst) : dlookup s k = none := by
  induction s with
  | nil => rfl
  | cons p rest ih =>
    obtain ⟨t, a⟩ := p
    simp only [List.map_cons, List.mem_cons] at h
    push_neg at h
    simp [dlookup, h.1, ih h.2]

lemma scan_keys (sendOk : String → Bool) (today : Date) (s : Store) :
    (check_deliveries sendOk today s).customers.map Prod.fst = s.map Prod.fst := by
  induction s with
  | nil => rfl
  | cons p rest ih =>
    obtain ⟨t, c⟩ := p
    simp only [check_deliveries]
    split
    · split <;> simp [ih]
    · simp [ih]

lemma scan_sent_tags {sendOk : String → Bool} {today : Date} {s : Store}
    {p : String × String} (h : p ∈ (check_deliveries sendOk today s).sent) :
    p.1 ∈ s.map Prod.fst := by
  induction s with
  | nil => simp [check_deliveries] at h
  | cons q rest ih =>
    obtain ⟨t, c⟩ := q
    simp only [check_deliveries] at h
    rcases hc : decide (c.delivery_date = today ∧ c.notified = false) with _ | _
    · rw [if_neg (by simpa using hc)] at h
      simp only [List.map_cons, List.mem_cons]
      exact Or.inr (ih h)
    · rw [if_pos (by simpa using hc)] at h
      by_cases hs : sendOk t = true
      · rw [if_pos hs] at h
        simp only [List.mem_cons] at h
        rcases h with h | h
        · simp [h]
        · simp only [List.map_cons, List.mem_cons]
          exact Or.inr (ih h)
      · rw [if_neg hs] at h
        simp only [List.map_cons, List.mem_cons]
        exact Or.inr (ih h)

lemma scan_absent {sendOk : String → Bool} {today : Date} {s : Store} {k : String}
    (h : k ∉ s.map Prod.fst) :
    dlookup (check_deliveries sendOk today s).customers k = none ∧
    (check_deliveries sendOk today s).sent.countP (fun n => decide (n.1 = k)) = 0 := by
  constructor
  · exact dlookup_not_mem (by rwa [scan_keys])
  · rw [List.countP_eq_zero]
    intro p hp
    simp only [decide_eq_true_eq]
    intro he
    exact h (he ▸ scan_sent_tags hp)

lemma scan_notified_preserved {sendOk : String → Bool} {today : Date} {k : String}
    {c : Customer} (hn : c.notified = true) :
    ∀ {s : Store}, dlookup s k = some c →
      dlookup (check_deliveries sendOk today s).customers k = some c := by
  intro s
  induction s with
  | nil => simp [dlookup, check_deliveries]
  | cons p rest ih =>
    obtain ⟨t, c'⟩ := p
    intro h
    by_cases hk : k = t
    · subst hk
      rw [dlookup, if_pos rfl] at h
      injection h with h
      subst h
      simp only [check_deliveries, hn]
      rw [if_neg (by simp [hn])]
      simp [dlookup]
    · rw [dlookup, if_neg hk] at h
      simp only [check_deliveries]
      split
      · split <;> simp [dlookup, hk, ih h]
      · simp [dlookup, hk, ih h]

lemma scan_due_ok {sendOk : String → Bool} {today : Date} {k : String}
    {c : Customer} (hdue : c.delivery_date = today) (hn : c.notified = false)
    (hs : sendOk k = true) :
    ∀ {s : Store}, KeysNodup s → dlookup s k = some c →
      dlookup (check_deliveries sendOk today s).customers k =
        some { c with notified := true } ∧
      (check_deliveries sendOk today s).sent.countP (fun n => decide (n.1 = k)) = 1 ∧
      (k, reminderText k today) ∈ (check_deliveries sendOk today s).sent := by
  intro s
  induction s with
  | nil => simp [dlookup]
  | cons p rest ih =>
    obtain ⟨t, c'⟩ := p
    intro hnd h
    rw [KeysNodup, List.map_cons, List.nodup_cons] at hnd
    by_cases hk : k = t
    · subst hk
      rw [dlookup, if_pos rfl] at h
      injection h with h
      subst h
      have habs := @scan_absent sendOk today rest k hnd.1
      simp only [check_deliveries]
      rw [if_pos (by simp [hdue, hn]), if_pos hs]
      refine ⟨by simp [dlookup], ?_, ?_⟩
      · simp [List.countP_cons, habs.2]
      · simp [hdue]
    · rw [dlookup, if_neg hk] at h
      have hk' : ¬t = k := fun he => hk he.symm
      have hr := ih hnd.2 h
      simp only [check_deliveries]
      split
      · split
        · refine ⟨by simp [dlookup, hk, hr.1], ?_, ?_⟩
          · simp [List.countP_cons, hk', hr.2.1]
          · exact List.mem_cons_of_mem _ hr.2.2
        · refine ⟨by simp [dlookup, hk, hr.1], by simp [hr.2.1], hr.2.2⟩
      · refine ⟨by simp [dlookup, hk, hr.1], by simp [hr.2.1], hr.2.2⟩

lemma scan_notified_zero {sendOk : String → Bool} {today : Date} {k : String}
    {c : Customer} (hn : c.notified = true) :
    ∀ {s : Store}, KeysNodup s → dlookup s k = some c →
      (check_deliveries sendOk today s).sent.countP (fun n => decide (n.1 = k)) = 0 := by
  intro s
  induction s with
  | nil => simp [dlookup]
  | cons p rest ih =>
    obtain ⟨t, c'⟩ := p
    intro hnd h
    rw [KeysNodup, List.map_cons, List.nodup_cons] at hnd
    by_cases hk : k = t
    · subst hk
      rw [dlookup, if_pos rfl] at h
      injection h with h
      subst h
      have habs := @scan_absent sendOk today rest k hnd.1
      simp only [check_deliveries]
      rw [if_neg (by simp [hn])]
      exact habs.2
    · rw [dlookup, if_neg hk] at h
      have hk' : ¬t = k := fun he => hk he.symm
      have hr := ih hnd.2 h
      simp only [check_deliveries]
      split
      · split
        · simp [List.countP_cons, hk', hr]
        · simp [hr]
      · simp [hr]

/-- The predicate selecting the records `check_deliveries` acts on. -/
lemma scan_allfail {sendOk : String → Bool} {today : Date} :
    ∀ {s : Store},
      (∀ p ∈ s, p.2.delivery_date = today → p.2.notified = false → sendOk p.1 = false) →
      check_deliveries sendOk today s =
        ⟨s, [],
         List.replicate
           (s.countP fun p => decide (p.2.delivery_date = today) && decide (p.2.notified = false))
           "Error sending reminder", 0⟩ := by
  intro s
  induction s with
  | nil =>
    intro _
    rfl
  | cons p rest ih =>
    obtain ⟨t, c⟩ := p
    intro hall
    have hrest := ih fun p hp => hall p (List.mem_cons_of_mem _ hp)
    simp only [check_deliveries, hrest]
    by_cases hdue : c.delivery_date = today ∧ c.notified = false
    · rw [if_pos hdue,
        if_neg (by simp [hall (t, c) (List.mem_cons_self _ _) hdue.1 hdue.2])]
      simp [List.countP_cons, hdue.1, hdue.2, List.replicate_succ]
    · rw [if_neg hdue]
      have hb : (decide (c.delivery_date = today) && decide (c.notified = false)) = false := by
        by_cases h1 : c.delivery_date = today
        · have h2 : c.notified ≠ false := fun h2 => hdue ⟨h1, h2⟩
          simp [h2]
        · simp [h1]
      simp only [List.countP_cons, hb]
      simp

/-- Claim C1 (amended): the reminder scan never reverts `notified` — a
record whose flag is true is left entirely unchanged by `check_deliveries`
— and `delete_customer` at most removes the record. The original claim
fails for upsert: completing an intake for an existing key replaces the
record by a freshly constructed `Customer`, whose `notified` defaults to
`False` (see the counterexample). -/
theorem claim_C1 (sendOk : String → Bool) (today : Date) (s : Store)
    (k k' : String) (c : Customer) (hnd : KeysNodup s)
    (h : dlookup s k = some c) (hn : c.notified = true) :
    dlookup (check_deliveries sendOk today s).customers k = some c ∧
    (dlookup (delete_customer s k').1 k = some c ∨
      dlookup (delete_customer s k').1 k = none) := by
  refine ⟨scan_notified_preserved hn h, ?_⟩
  unfold delete_customer
  by_cases hf : (dlookup s k').isSome
  · rw [if_pos hf]
    by_cases hk : k = k'
    · subst hk
      exact Or.inr (dlookup_derase_self hnd)
    · exact Or.inl (by rw [dlookup_derase_ne _ hk, h])
  · rw [if_neg hf]
    exact Or.inl h

/-- Witness for C1 at a concrete already-notified record. -/
theorem claim_C1_witness :
    dlookup (check_deliveries (fun _ => true) ⟨2026, 10, 20⟩
        [("@bob", ⟨"@bob", ⟨2026, 10, 20⟩, none, none, true⟩)]).customers "@bob" =
      some ⟨"@bob", ⟨2026, 10, 20⟩, none, none, true⟩ ∧
    (dlookup (delete_customer
        [("@bob", ⟨"@bob", ⟨2026, 10, 20⟩, none, none, true⟩)] "@zoe").1 "@bob" =
      some ⟨"@bob", ⟨2026, 10, 20⟩, none, none, true⟩ ∨
     dlookup (delete_customer
        [("@bob", ⟨"@bob", ⟨2026, 10, 20⟩, none, none, true⟩)] "@zoe").1 "@bob" = none) :=
  claim_C1 (fun _ => true) ⟨2026, 10, 20⟩ _ "@bob" "@zoe"
    ⟨"@bob", ⟨2026, 10, 20⟩, none, none, true⟩ (by decide) (by decide) (by decide)

/-- Counterexample to claim C1 as stated: with `notified = True` stored
under `"@bob"`, re-completing the intake for the same tag
(`finalize_customer_query`) stores a fresh record whose `notified` is
`False` — the flag does revert under the same key. -/
theorem counterexample_C1 :
    (dlookup [("@bob", ⟨"@bob", ⟨2026, 10, 20⟩, none, none, true⟩)] "@bob").map
        Customer.notified = some true ∧
    (dlookup (finalize_customer_query_store "@bob" ⟨2026, 10, 20⟩ (some 100) (some true)
        [("@bob", ⟨"@bob", ⟨2026, 10, 20⟩, none, none, true⟩)]) "@bob").map
        Customer.notified = some false := by
  constructor <;> rfl

/-- Claim C2 (amended): a record due today and not yet notified gets exactly
one notification in a scan — the message text carrying the key and the
date (but, unlike the claim's wording, no amount: the f-string in
`check_deliveries` interpolates only the tag and the delivery date, see the
counterexample) — its `notified` becomes true, and a second scan the same
day sends nothing further for it. -/
theorem claim_C2 (sendOk sendOk2 : String → Bool) (today : Date) (s : Store)
    (k : String) (c : Customer) (hnd : KeysNodup s) (h : dlookup s k = some c)
    (hdue : c.delivery_date = today) (hn : c.notified = false)
    (hs : sendOk k = true) :
    (check_deliveries sendOk today s).sent.countP (fun n => decide (n.1 = k)) = 1 ∧
    (k, reminderText k today) ∈ (check_deliveries sendOk today s).sent ∧
    dlookup (check_deliveries sendOk today s).customers k =
      some { c with notified := true } ∧
    (check_deliveries sendOk2 today
        (check_deliveries sendOk today s).customers).sent.countP
      (fun n => decide (n.1 = k)) = 0 := by
  have h1 := scan_due_ok hdue hn hs hnd h
  refine ⟨h1.2.1, h1.2.2, h1.1, ?_⟩
  have hnd' : KeysNodup (check_deliveries sendOk today s).customers := by
    rw [KeysNodup, scan_keys]
    exact hnd
  exact scan_notified_zero rfl hnd' h1.1

/-- Witness for C2 at a concrete store. -/
theorem claim_C2_witness :
    (check_deliveries (fun _ => true) ⟨2026, 10, 12⟩
        [("@alice", ⟨"@alice", ⟨2026, 10, 12⟩, some 12000, none, false⟩)]).sent.countP
      (fun n => decide (n.1 = "@alice")) = 1 ∧
    ("@alice", reminderText "@alice" ⟨2026, 10, 12⟩) ∈
      (check_deliveries (fun _ => true) ⟨2026, 10, 12⟩
        [("@alice", ⟨"@alice", ⟨2026, 10, 12⟩, some 12000, none, false⟩)]).sent ∧
    dlookup (check_deliveries (fun _ => true) ⟨2026, 10, 12⟩
        [("@alice", ⟨"@alice", ⟨2026, 10, 12⟩, some 12000, none, false⟩)]).customers
      "@alice" = some ⟨"@alice", ⟨2026, 10, 12⟩, some 12000, none, true⟩ ∧
    (check_deliveries (fun _ => false) ⟨2026, 10, 12⟩
        (check_deliveries (fun _ => true) ⟨2026, 10, 12⟩
          [("@alice", ⟨"@alice", ⟨2026, 10, 12⟩, some 12000, none, false⟩)]).customers).sent.countP
      (fun n => decide (n.1 = "@alice")) = 0 :=
  claim_C2 (fun _ => true) (fun _ => false) ⟨2026, 10, 12⟩ _ "@alice"
    ⟨"@alice", ⟨2026, 10, 12⟩, some 12000, none, false⟩
    (by decide) (by decide) (by decide) (by decide) (by decide)

/-- Counterexample to claim C2 as stated: the single notification sent for
a due record with `order_amount = 12000` is the literal reminder text, and
the decimal rendering of the amount does not occur anywhere in it — the
notification carries no amount context. -/
theorem counterexample_C2 :
    (check_deliveries (fun _ => true) ⟨2026, 10, 12⟩
        [("@alice", ⟨"@alice", ⟨2026, 10, 12⟩, some 12000, none, false⟩)]).sent =
      [("@alice", reminderText "@alice" ⟨2026, 10, 12⟩)] ∧
    containsSub ("12000".data) (reminderText "@alice" ⟨2026, 10, 12⟩).data = false := by
  constructor
  · rfl
  · decide

/-- Claim C9: when every due record's send fails in a scan, the scan leaves
the store byte-for-byte unchanged (no `markNotified`), performs no
`save_data` call, delivers nothing, and logs one error line per failed
send; the next scan of the daily job, with the sink back up, delivers the
record's reminder exactly once and only then marks it notified. -/
theorem claim_C9 (sendOk1 sendOk2 : String → Bool) (today : Date) (s : Store)
    (k : String) (c : Customer) (hnd : KeysNodup s) (h : dlookup s k = some c)
    (hdue : c.delivery_date = today) (hn : c.notified = false)
    (hall : ∀ p ∈ s, p.2.delivery_date = today → p.2.notified = false →
      sendOk1 p.1 = false)
    (hs2 : sendOk2 k = true) :
    (check_deliveries sendOk1 today s).customers = s ∧
    (check_deliveries sendOk1 today s).sent = [] ∧
    (check_deliveries sendOk1 today s).saves = 0 ∧
    "Error sending reminder" ∈ (check_deliveries sendOk1 today s).logs ∧
    (check_deliveries sendOk2 today
        (check_deliveries sendOk1 today s).customers).sent.countP
      (fun n => decide (n.1 = k)) = 1 ∧
    dlookup (check_deliveries sendOk2 today
        (check_deliveries sendOk1 today s).customers).customers k =
      some { c with notified := true } := by
  have hfail := scan_allfail hall
  have hpos : 0 < s.countP fun p =>
      decide (p.2.delivery_date = today) && decide (p.2.notified = false) := by
    rw [List.countP_pos_iff]
    exact ⟨(k, c), dlookup_mem h, by simp [hdue, hn]⟩
  rw [hfail]
  have h2 := @scan_due_ok sendOk2 today k c hdue hn hs2 s hnd h
  exact ⟨rfl, rfl, rfl, List.mem_replicate.mpr ⟨by omega, rfl⟩, h2.2.1, h2.1⟩

/-- Witness for C9 at a concrete store: the sink is down for the first
scan and up for the second. -/
theorem claim_C9_witness :
    (check_deliveries (fun _ => false) ⟨2026, 10, 12⟩
        [("@alice", ⟨"@alice", ⟨2026, 10, 12⟩, some 12000, none, false⟩)]).customers =
      [("@alice", ⟨"@alice", ⟨2026, 10, 12⟩, some 12000, none, false⟩)] ∧
    (check_deliveries (fun _ => false) ⟨2026, 10, 12⟩
        [("@alice", ⟨"@alice", ⟨2026, 10, 12⟩, some 12000, none, false⟩)]).sent = [] ∧
    (check_deliveries (fun _ => false) ⟨2026, 10, 12⟩
        [("@alice", ⟨"@alice", ⟨2026, 10, 12⟩, some 12000, none, false⟩)]).saves = 0 ∧
    "Error sending reminder" ∈ (check_deliveries (fun _ => false) ⟨2026, 10, 12⟩
        [("@alice", ⟨"@alice", ⟨2026, 10, 12⟩, some 12000, none, false⟩)]).logs ∧
    (check_deliveries (fun _ => true) ⟨2026, 10, 12⟩
        (check_deliveries (fun _ => false) ⟨2026, 10, 12⟩
          [("@alice", ⟨"@alice", ⟨2026, 10, 12⟩, some 12000, none, false⟩)]).customers).sent.countP
      (fun n => decide (n.1 = "@alice")) = 1 ∧
    dlookup (check_deliveries (fun _ => true) ⟨2026, 10, 12⟩
        (check_deliveries (fun _ => false) ⟨2026, 10, 12⟩
          [("@alice", ⟨"@alice", ⟨2026, 10, 12⟩, some 12000, none, false⟩)]).customers).customers
      "@alice" = some ⟨"@alice", ⟨2026, 10, 12⟩, some 12000, none, true⟩ :=
  claim_C9 (fun _ => false) (fun _ => true) ⟨2026, 10, 12⟩ _ "@alice"
    ⟨"@alice", ⟨2026, 10, 12⟩, some 12000, none, false⟩
    (by decide) (by decide) (by decide) (by decide)
    (fun p _ _ _ => rfl) (by decide)

/-- Witness for C6: a missing file, invalid JSON, a record missing its
fields, and a record with a malformed date all load as the empty store
without an exception, the error cases logging a line. -/
theorem claim_C6_witness :
    load_data none = ([], []) ∧
    load_data (some (.error .valueError)) = ([], ["Error loading data"]) ∧
    load_data (some (.ok (.obj [("@a", .obj [])]))) = ([], ["Error loading data"]) ∧
    load_data (some (.ok (.obj [("@a", .obj [("tag", .str "@a"),
      ("delivery_date", .str "not-a-date")])]))) = ([], ["Error loading data"]) :=
  ⟨(claim_C6 none).1 rfl,
   (claim_C6 _).2.1 .valueError rfl,
   (claim_C6 _).2.1 .keyError rfl,
   (claim_C6 _).2.1 .valueError rfl⟩

end Delivery

namespace Delivery

/-- Claim C8 (amended): the order-amount step re-prompts (stays on
`ORDER_AMOUNT`) exactly when `float()` raises on the comma-normalised text,
and advances on every successfully parsed value — the source has no
strictly-positive check, so `0` and negative amounts are accepted (see the
counterexample). -/
theorem claim_C8 (split_payment_enabled : Bool) (text : String) :
    (get_order_amount split_payment_enabled text = .retry ↔
      pyFloat (replaceCommaDot text) = none) ∧
    ∀ a, pyFloat (replaceCommaDot text) = some a →
      get_order_amount split_payment_enabled text =
        if split_payment_enabled then .askSplit a else .finalized a := by
  cases hp : pyFloat (replaceCommaDot text) with
  | none =>
    have key : get_order_amount split_payment_enabled text = .retry := by
      unfold get_order_amount
      rw [hp]
    exact ⟨by simp [key], fun a ha => absurd ha (by simp)⟩
  | some a =>
    have key : get_order_amount split_payment_enabled text =
        if split_payment_enabled then .askSplit a else .finalized a := by
      unfold get_order_amount
      rw [hp]
    refine ⟨⟨fun h => ?_, fun h => absurd h (by simp)⟩, fun b hb => ?_⟩
    · rw [key] at h
      split at h <;> simp at h
    · injection hb with hb
      subst hb
      exact key

/-- Witness for C8: `"1500,50"` parses to 1500.5 and completes the record
(split step disabled). -/
theorem claim_C8_witness :
    get_order_amount false "1500,50" = .finalized ((3001 : ℚ) / 2) :=
  (claim_C8 false "1500,50").2 ((3001 : ℚ) / 2)
    (by
      simp [pyFloat, replaceCommaDot, decVal, digitVal, List.takeWhile,
        List.dropWhile, List.foldl]
      norm_num)

/-- Counterexample to claim C8 as stated: the input `"-5"` parses to a
number that is not strictly greater than 0, yet the step does not re-prompt
— it advances and finalizes the record with a negative amount. -/
theorem counterexample_C8 :
    get_order_amount false "-5" = .finalized (-5) ∧ ((-5 : ℚ) ≤ 0) := by
  have hp : pyFloat (replaceCommaDot "-5") = some (-5) := by
    simp [pyFloat, replaceCommaDot, decVal, digitVal, List.takeWhile,
      List.dropWhile, List.foldl]
  refine ⟨?_, by norm_num⟩
  unfold get_order_amount
  rw [hp]
  rfl

end Delivery

namespace ObfBot

lemma replaceFrom_forall2 (coin : Nat → Bool) :
    ∀ (cs : List Char) (i : Nat),
      List.Forall₂ (fun a b => b = a ∨ lookupChar REPLACEMENT_MAP a = some b)
        cs (replaceFrom coin i cs) := by
  intro cs
  induction cs with
  | nil =>
    intro i
    simp [replaceFrom]
  | cons c rest ih =>
    intro i
    simp only [replaceFrom]
    cases hl : lookupChar REPLACEMENT_MAP c with
    | none => exact List.Forall₂.cons (Or.inl (by trivial)) (ih i)
    | some r =>
      refine List.Forall₂.cons ?_ (ih (i + 1))
      by_cases hc : coin i = true
      · simp only [hc, if_true]
        exact Or.inr hl
      · simp only [Bool.not_eq_true] at hc
        simp only [hc, Bool.false_eq_true, if_false]
        exact Or.inl (by trivial)

/-- Claim C10: for every random stream and every input, `replace_letters`
returns a string of the same length whose i-th character is either the
original i-th character or — only when that character is a key of
`REPLACEMENT_MAP` — its Latin replacement; characters outside the map are
always left unchanged (the pointwise relation forces `b = a` whenever the
lookup is `none`). -/
theorem claim_C10 (coin : Nat → Bool) (text : String) :
    (replace_letters coin text).length = text.length ∧
    List.Forall₂ (fun a b => b = a ∨ lookupChar REPLACEMENT_MAP a = some b)
      text.data (replace_letters coin text).data := by
  have h := replaceFrom_forall2 coin text.data 0
  refine ⟨?_, h⟩
  show (replaceFrom coin 0 text.data).length = text.data.length
  exact h.length_eq.symm

end ObfBot

namespace Delivery

lemma parseCustomer_saveCustomer (c : Customer) (hv : c.delivery_date.Valid) :
    parseCustomer (saveCustomer c) = .ok c := by
  obtain ⟨tag, dd, oa, sp, nf⟩ := c
  have hiso := @fromisoformat_isoformat dd hv
  cases oa <;> cases sp <;>
    simp [saveCustomer, parseCustomer, dlookup, customerFields, hiso, parseTag,
      parseOptNum, parseOptBool, parseBoolD, Bind.bind, Except.bind]

lemma parseStore_go_save :
    ∀ (s acc : Store),
      (∀ p ∈ s, p.1 ∉ acc.map Prod.fst) →
      KeysNodup s →
      (∀ p ∈ s, p.2.delivery_date.Valid) →
      parseStore.go acc (s.map fun p => (p.1, saveCustomer p.2)) = .ok (acc ++ s) := by
  intro s
  induction s with
  | nil =>
    intro acc _ _ _
    simp [parseStore.go]
  | cons p rest ih =>
    obtain ⟨k, c⟩ := p
    intro acc hdisj hnd hv
    rw [KeysNodup, List.map_cons, List.nodup_cons] at hnd
    simp only [List.map_cons, parseStore.go,
      parseCustomer_saveCustomer c (hv (k, c) (List.mem_cons_self _ _))]
    rw [dinsert_not_mem_append c (hdisj (k, c) (List.mem_cons_self _ _))]
    have hdisj' : ∀ p ∈ rest, p.1 ∉ (acc ++ [(k, c)]).map Prod.fst := by
      intro p hp
      rw [List.map_append]
      simp only [List.mem_append, List.map_cons, List.map_nil, List.mem_singleton]
      push_neg
      refine ⟨hdisj p (List.mem_cons_of_mem _ hp), ?_⟩
      intro he
      have hmem : p.1 ∈ rest.map Prod.fst := List.mem_map.mpr ⟨p, hp, rfl⟩
      rw [he] at hmem
      exact hnd.1 hmem
    rw [ih (acc ++ [(k, c)]) hdisj' hnd.2 (fun p hp => hv p (List.mem_cons_of_mem _ hp))]
    simp

lemma load_save (s : Store) (hnd : KeysNodup s)
    (hv : ∀ p ∈ s, p.2.delivery_date.Valid) :
    load_data (some (.ok (save_data s))) = (s, []) := by
  have hparse : parseStore (save_data s) = .ok s := by
    rw [show parseStore (save_data s) =
        parseStore.go [] (s.map fun p => (p.1, saveCustomer p.2)) from rfl,
      parseStore_go_save s [] (by simp) hnd hv]
    simp
  have hatt : loadAttempt (some (.ok (save_data s))) = .ok s := hparse
  unfold load_data
  rw [hatt]

/-- Claim C3: upserting a record and re-loading the serialized store gives
back the very same store — in particular the upserted record, equal in
every field (key, targetDate, orderAmount, splitPayment, notified) — with
nothing logged. Hypotheses: the store is a real dict (distinct keys) and
every stored date is a real calendar date, both guaranteed by
`datetime.date` and dict semantics in the source. -/
theorem claim_C3 (s : Store) (r : Customer) (hnd : KeysNodup s)
    (hv : ∀ p ∈ s, p.2.delivery_date.Valid) (hvr : r.delivery_date.Valid) :
    load_data (some (.ok (save_data (dinsert r.tag r s)))) = (dinsert r.tag r s, []) ∧
    dlookup (dinsert r.tag r s) r.tag = some r := by
  have hnd' : KeysNodup (dinsert r.tag r s) := keysNodup_dinsert _ _ hnd
  have hv' : ∀ p ∈ dinsert r.tag r s, p.2.delivery_date.Valid := by
    intro p hp
    rcases mem_dinsert hp with h | h
    · rw [h]
      exact hvr
    · exact hv p h
  exact ⟨load_save _ hnd' hv', dlookup_dinsert_self _ _ _⟩

/-- Witness for C3: upsert `"@alice"` (with amount and split flag set) into
a store already holding `"@bob"`; saving and re-loading returns exactly the
updated store, and the lookup returns the record unchanged. -/
theorem claim_C3_witness :
    load_data (some (.ok (save_data (dinsert "@alice"
        (⟨"@alice", ⟨2026, 10, 15⟩, some 12000, some true, false⟩ : Customer)
        [("@bob", ⟨"@bob", ⟨2026, 10, 20⟩, none, none, false⟩)])))) =
      (dinsert "@alice" (⟨"@alice", ⟨2026, 10, 15⟩, some 12000, some true, false⟩ : Customer)
        [("@bob", ⟨"@bob", ⟨2026, 10, 20⟩, none, none, false⟩)], []) ∧
    dlookup (dinsert "@alice"
        (⟨"@alice", ⟨2026, 10, 15⟩, some 12000, some true, false⟩ : Customer)
        [("@bob", ⟨"@bob", ⟨2026, 10, 20⟩, none, none, false⟩)]) "@alice" =
      some ⟨"@alice", ⟨2026, 10, 15⟩, some 12000, some true, false⟩ :=
  claim_C3 [("@bob", ⟨"@bob", ⟨2026, 10, 20⟩, none, none, false⟩)]
    ⟨"@alice", ⟨2026, 10, 15⟩, some 12000, some true, false⟩
    (by decide) (by decide) (by decide)

lemma ble_trans : ∀ a b c : String × Customer,
    a.2.delivery_date.ble b.2.delivery_date = true →
    b.2.delivery_date.ble c.2.delivery_date = true →
    a.2.delivery_date.ble c.2.delivery_date = true := by
  intro a b c
  simp only [Date.ble, decide_eq_true_eq]
  omega

lemma ble_total : ∀ a b : String × Customer,
    (a.2.delivery_date.ble b.2.delivery_date ||
      b.2.delivery_date.ble a.2.delivery_date) = true := by
  intro a b
  simp only [Date.ble, Bool.or_eq_true, decide_eq_true_eq]
  omega

/-- Claim C7: the customer list is shown as a permutation of the store
sorted by delivery date ascending, and for each date the records carrying
it appear in exactly their store (insertion) order — Python's `sorted` is
stable and dict iteration is insertion-ordered. -/
theorem claim_C7 (s : Store) :
    (sorted_customers s).Perm s ∧
    (sorted_customers s).Pairwise
      (fun a b => a.2.delivery_date.ble b.2.delivery_date = true) ∧
    ∀ d : Date, (sorted_customers s).filter (fun p => decide (p.2.delivery_date = d)) =
      s.filter (fun p => decide (p.2.delivery_date = d)) := by
  refine ⟨List.mergeSort_perm s _, List.sorted_mergeSort ble_trans ble_total s, ?_⟩
  intro d
  have hall : ∀ p ∈ s.filter (fun p => decide (p.2.delivery_date = d)),
      p.2.delivery_date = d := by
    intro p hp
    simpa using (List.mem_filter.mp hp).2
  have hpw : (s.filter (fun p => decide (p.2.delivery_date = d))).Pairwise
      (fun a b => a.2.delivery_date.ble b.2.delivery_date = true) := by
    refine List.pairwise_of_forall_mem_list ?_
    intro a ha b hb
    rw [hall a ha, hall b hb]
    simp [Date.ble]
  have hsub : (s.filter (fun p => decide (p.2.delivery_date = d))).Sublist
      (sorted_customers s) :=
    List.mergeSort_stable ble_trans ble_total hpw (List.filter_sublist s)
  have hsub2 : (s.filter (fun p => decide (p.2.delivery_date = d))).Sublist
      ((sorted_customers s).filter (fun p => decide (p.2.delivery_date = d))) := by
    have := hsub.filter (fun p => decide (p.2.delivery_date = d))
    rwa [List.filter_eq_self.mpr (fun a ha => by simpa using hall a ha)] at this
  have hperm : ((sorted_customers s).filter
      (fun p => decide (p.2.delivery_date = d))).Perm
      (s.filter (fun p => decide (p.2.delivery_date = d))) :=
    (List.mergeSort_perm s _).filter _
  exact (hsub2.eq_of_length hperm.length_eq.symm).symm

end Delivery
